import Mathlib

/-!
Verification of the tool-discovery pipeline: shallow embedding of the
scraper/cleaner stage (`backend/scrapers/data_cleaner.py`), the analyzer
stage (`backend/analyzer/analyzer.py`, `backend/analyzer/trend_detector.py`),
the persistence stage (`backend/database/database_manager.py`,
`backend/database/batch_optimizer.py`, `backend/database/supabase_client.py`)
and the RSS fan-out (`backend/scrapers/rss_manager.py`), together with
theorems settling the specification's testable properties.

Strings are modelled as Lean `String`/`List Char` (Python strings are
sequences of Unicode code points, as are Lean strings).  Python `str.lower`
is modelled by ASCII lowering (`Char.toLower`); every string constant the
code compares against is unaffected by this restriction.  Machine floats
appear only in the `1.5 *` / `0.5 *` vote comparisons and the `0.8`
Jaccard threshold; both are modelled by exact integer arithmetic
(`2*a > 3*b`, `5*i ≥ 4*u`), which agrees with the float computation on all
integer inputs of the magnitudes the program handles.
-/

/-! ### Basic character/string helpers (Python semantics) -/

/-- Python whitespace class `\s` (ASCII part): space, tab, newline,
carriage return, vertical tab, form feed. -/
def pySpace (c : Char) : Bool :=
  c = ' ' || c = '\t' || c = '\n' || c = '\r' || c = '\x0b' || c = '\x0c'

/-- `leadsWith n h` : the list `n` is an initial segment of `h`. -/
def leadsWith : List Char → List Char → Bool
  | [], _ => true
  | _ :: _, [] => false
  | a :: as, b :: bs => a == b && leadsWith as bs

/-- Python `needle in hay` substring test. -/
def hasSub (needle : List Char) : List Char → Bool
  | [] => leadsWith needle []
  | c :: rest => leadsWith needle (c :: rest) || hasSub needle rest

/-- Substring test on `String`s (Python `a in b`). -/
def strHasSub (needle hay : String) : Bool := hasSub needle.data hay.data

/-- Python `str.lower`, restricted to ASCII case mapping. -/
def pyLower (s : String) : String := String.mk (s.data.map Char.toLower)

/-- Python `str.split()` (no argument): split on whitespace runs, dropping
empty fields.  Auxiliary accumulator form, structurally recursive. -/
def splitWsAux : List Char → List Char → List (List Char)
  | [], cur => if cur = [] then [] else [cur.reverse]
  | c :: rest, cur =>
    if pySpace c then
      if cur = [] then splitWsAux rest [] else cur.reverse :: splitWsAux rest []
    else splitWsAux rest (c :: cur)

/-- Python `str.split()` on a list of characters. -/
def pySplitWs (l : List Char) : List (List Char) := splitWsAux l []

/-! ### TrendDetector (`backend/analyzer/trend_detector.py`) -/

/-- The tool fields `TrendDetector.detect_trend` reads from its input dict:
`tool_name`, `description`, `votes` and the (pre-parsed) age in days.
`ageDays = none` models a missing or unparseable `date` value (the
`try/except` around the date arithmetic). -/
structure ToolInfo where
  tool_name : String
  description : String
  votes : Int
  ageDays : Option Int
deriving Repr, DecidableEq

/-- A historical record as consumed by `_analyze_historical_trend`:
only `tool_name` and `votes` are read. -/
structure HistTool where
  tool_name : String
  votes : Int
deriving Repr, DecidableEq

/-- `self.hot_keywords['Rising']` from `TrendDetector.__init__`. -/
def risingKeywords : List String :=
  ["AI", "GPT", "ChatGPT", "OpenAI", "automatically", "auto",
   "智能", "自动", "AI驱动", "智能助手", "AI助手",
   "new", "latest", "innovative", "breakthrough", "revolutionary",
   "新", "最新", "创新", "突破", "革命性"]

/-- `self.hot_keywords['Declining']` from `TrendDetector.__init__`
(the source lists `deprecated` twice, and so does this model). -/
def decliningKeywords : List String :=
  ["deprecated", "old", "legacy", "outdated", "discontinued",
   "过时", "旧版", "停止维护", "deprecated"]

/-- `TrendDetector._analyze_historical_trend`: find historical tools whose
name contains a word (longer than 2 chars) of the current tool's name,
then compare current votes against the best historical vote count.
`current > 1.5 * latest` and `current < 0.5 * latest` are computed with
exact integer arithmetic (`2a > 3b`, `2a < b`). -/
def analyze_historical_trend (t : ToolInfo) (hist : List HistTool) : String :=
  if hist = [] then "Stable"
  else
    let current_name := pyLower t.tool_name
    let similar := hist.filter (fun h =>
      (pySplitWs current_name.data).any (fun w =>
        w.length > 2 && hasSub w (pyLower h.tool_name).data))
    if similar = [] then "Stable"
    else
      let latest_votes := (similar.map HistTool.votes).foldl max
        ((similar.map HistTool.votes).headD 0)
      if 2 * t.votes > 3 * latest_votes then "Rising"
      else if 2 * t.votes < latest_votes then "Declining"
      else "Stable"

/-- Find the first occurrence of the literal `p` reachable through a `.*`
gap: only non-newline characters may be skipped (`.` does not match a
newline); returns the remainder after the occurrence. -/
def findLit (p : List Char) : List Char → Option (List Char)
  | [] => if leadsWith p [] then some [] else none
  | c :: rest =>
    if leadsWith p (c :: rest) then some (List.drop p.length (c :: rest))
    else if c = '\n' then none
    else findLit p rest

/-- Match the remaining literals of a `lit₁.*lit₂.*…` pattern, each reached
through a `.*` gap.  Committing to the earliest occurrence of each literal
is equivalent to the backtracking regex semantics whenever the literals
contain no newline (true of all six breakthrough patterns): an earlier
occurrence only enlarges the newline-free region reachable afterwards. -/
def matchRest : List (List Char) → List Char → Bool
  | [], _ => true
  | p :: ps, hay =>
    match findLit p hay with
    | some rem => matchRest ps rem
    | none => false

/-- The start-position scan of `re.search`: try a match of `p` followed by
the remaining literals at every offset of the text (newlines included),
succeeding if any offset admits a full match — exactly the backtracking
over match starts that `re.search` performs. -/
def searchFrom (p : List Char) (ps : List (List Char)) : List Char → Bool
  | [] => leadsWith p [] && matchRest ps []
  | c :: rest =>
    (leadsWith p (c :: rest) && matchRest ps (List.drop p.length (c :: rest))) ||
    searchFrom p ps rest

/-- `re.search` of a pattern of the form `lit₁.*lit₂.*…`: the first literal
may start at any position (every offset is tried), subsequent gaps are
`.*` (no newline). -/
def searchSeq (parts : List (List Char)) (hay : List Char) : Bool :=
  match parts with
  | [] => true
  | p :: ps => searchFrom p ps hay

/-- `TrendDetector._is_breakthrough_tool`: the six breakthrough regex
patterns, each a sequence of literals joined by `.*`. -/
def is_breakthrough_tool (text : List Char) : Bool :=
  [[("first" : String), "ai", "tool"],
   ["worlds first"],
   ["breakthrough", "ai"],
   ["revolutionary", "approach"],
   ["game changer"],
   ["paradigm shift"]].any
    (fun parts => searchSeq (parts.map String.data) text)

/-- The decision block of `detect_trend`: Rising if strictly ahead of both,
else Declining if strictly ahead of stable, else Stable. -/
def trendDecision (rising stable declining : Int) : String :=
  if rising > stable && rising > declining then "Rising"
  else if declining > stable then "Declining"
  else "Stable"

/-- `TrendDetector.detect_trend` (`trend_detector.py` lines 35-108):
three accumulators seeded `rising=0, stable=50, declining=0`, updated by
votes, keyword hits, recency, optional historical comparison and the
breakthrough patterns, then the order-sensitive decision rule. -/
def detect_trend (t : ToolInfo) (hist : List HistTool) : String :=
  let rising₀ : Int := 0
  let stable₀ : Int := 50
  let declining₀ : Int := 0
  -- 1. votes
  let rising₁ := if t.votes ≥ 100 then rising₀ + 30 else rising₀
  let declining₁ := if t.votes ≥ 100 then declining₀
    else if t.votes ≤ 10 then declining₀ + 20 else declining₀
  -- 2. keyword scan over "name description" (both lowered)
  let text := (pyLower t.tool_name).data ++ (' ' :: (pyLower t.description).data)
  let rising₂ := risingKeywords.foldl
    (fun acc kw => if hasSub (pyLower kw).data text then acc + 15 else acc) rising₁
  let declining₂ := decliningKeywords.foldl
    (fun acc kw => if hasSub (pyLower kw).data text then acc + 25 else acc) declining₁
  -- 3. recency
  let rising₃ := match t.ageDays with
    | some d => if d ≤ 7 then rising₂ + 20 else rising₂
    | none => rising₂
  let declining₃ := match t.ageDays with
    | some d => if d ≤ 7 then declining₂ else if d ≥ 30 then declining₂ + 15 else declining₂
    | none => declining₂
  -- 4. historical comparison (only when the list is non-empty / truthy)
  let histTrend := if hist = [] then none else some (analyze_historical_trend t hist)
  let rising₄ := if histTrend = some "Rising" then rising₃ + 25 else rising₃
  let declining₄ := if histTrend = some "Declining" then declining₃ + 25 else declining₃
  let stable₄ := if histTrend = some "Rising" || histTrend = some "Declining" || histTrend = none
    then stable₀ else stable₀ + 25
  -- 5. breakthrough patterns
  let rising₅ := if is_breakthrough_tool text then rising₄ + 20 else rising₄
  -- decision
  trendDecision rising₅ stable₄ declining₄

/-! ### AIAnalyzer (`backend/analyzer/analyzer.py`) -/

/-- The value of the `date` key of a tool dict as the analyzer sees it:
absent, present-but-unparseable (the `try/except` in `detect_trend`), or
parseable with a known age in days relative to "now". -/
inductive DateVal where
  | absent : DateVal
  | unparseable : DateVal
  | age : Int → DateVal
deriving Repr, DecidableEq

/-- Age in days extracted from a `date` value by `detect_trend`'s
`try/except` block: `none` when the key is absent or unparseable. -/
def dateAge : DateVal → Option Int
  | DateVal.age d => some d
  | _ => none

/-- `"date": tool.get("date", datetime.now().isoformat())` — a missing
date key is replaced by "now", whose age is 0 days. -/
def dateOrNow : DateVal → DateVal
  | DateVal.absent => DateVal.age 0
  | v => v

/-- An input candidate as passed to `AIAnalyzer.analyze_tools`
(`tools_data`): the keys the analyzer reads. -/
structure ToolIn where
  tool_name : String
  description : String
  votes : Int
  link : String
  date : DateVal
deriving Repr, DecidableEq

/-- The `{}` default used for `original_data[i] if i < len(original_data)
else {}`: every `.get` then returns its default. -/
def emptyToolIn : ToolIn :=
  { tool_name := "", description := "", votes := 0, link := "", date := DateVal.absent }

/-- One item of the parsed GPT response (`analyzed_tools` array); every
field is read with `.get` and a default, hence `Option`.  The typed model
represents `micro_saas_ideas` as an optional list; a present non-list
value (coerced to `[]` by `_validate_analysis_results`) is outside the
typed embedding. -/
structure GptItem where
  tool_name : Option String
  category : Option String
  trend_signal : Option String
  pain_point : Option String
  micro_saas_ideas : Option (List String)
deriving Repr, DecidableEq

/-- A GPT item with every key missing: the `getD` default when the GPT
result list is longer than the original data (never reached when the two
lists have equal length). -/
def emptyGptItem : GptItem :=
  { tool_name := none, category := none, trend_signal := none,
    pain_point := none, micro_saas_ideas := none }

/-- An enriched record as built by `_enhance_with_local_analysis` /
`_fallback_local_analysis` and consumed by `_validate_analysis_results`. -/
structure ToolOut where
  tool_name : String
  description : String
  category : String
  votes : Int
  link : String
  trend_signal : String
  pain_point : String
  micro_saas_ideas : List String
  date : DateVal
deriving Repr, DecidableEq

/-- The `ToolInfo` fields `detect_trend` reads off an enriched record. -/
def infoOfOut (r : ToolOut) : ToolInfo :=
  { tool_name := r.tool_name, description := r.description,
    votes := r.votes, ageDays := dateAge r.date }

/-- Merge one GPT item with its original candidate
(`_enhance_with_local_analysis` loop body, before the trend override). -/
def mergeTool (g : GptItem) (orig : ToolIn) : ToolOut :=
  { tool_name := g.tool_name.getD orig.tool_name,
    description := orig.description,
    category := g.category.getD "Other",
    votes := orig.votes,
    link := orig.link,
    trend_signal := g.trend_signal.getD "Stable",
    pain_point := g.pain_point.getD "",
    micro_saas_ideas := g.micro_saas_ideas.getD [],
    date := dateOrNow orig.date }

/-- `AIAnalyzer._enhance_with_local_analysis`: merge each GPT item with the
original candidate at the same index (`{}` past the end), compute the
local trend with `detect_trend` (no historical data), and overwrite the
remote trend signal whenever it differs. -/
def enhance_with_local_analysis (gptResults : List GptItem) (originalData : List ToolIn) :
    List ToolOut :=
  (List.range gptResults.length).map (fun i =>
    let g := gptResults.getD i emptyGptItem
    let orig := originalData.getD i emptyToolIn
    let enhanced := mergeTool g orig
    let localTrend := detect_trend (infoOfOut enhanced) []
    if enhanced.trend_signal ≠ localTrend then
      { enhanced with trend_signal := localTrend }
    else enhanced)

/-- `AnalysisPrompts.CATEGORIES` (`backend/analyzer/prompts.py`). -/
def CATEGORIES : List String :=
  ["Video", "Text", "Productivity", "Marketing", "Education", "Audio", "Other"]

/-- `AnalysisPrompts.TREND_SIGNALS` (`backend/analyzer/prompts.py`). -/
def TREND_SIGNALS : List String := ["Rising", "Stable", "Declining"]

/-- Per-record body of `AIAnalyzer._validate_analysis_results`: drop
records without a name, coerce out-of-vocabulary category/trend, cap the
pain point at 50 characters with an ellipsis marker. -/
def validateOne (t : ToolOut) : Option ToolOut :=
  if t.tool_name = "" then none
  else some
    { t with
      category := if CATEGORIES.contains t.category then t.category else "Other",
      trend_signal := if TREND_SIGNALS.contains t.trend_signal then t.trend_signal else "Stable",
      pain_point := if t.pain_point.length > 50
        then String.mk (t.pain_point.data.take 50) ++ "..."
        else t.pain_point }

/-- `AIAnalyzer._validate_analysis_results`. -/
def validate_analysis_results (tools : List ToolOut) : List ToolOut :=
  tools.filterMap validateOne

/-- `AIAnalyzer._simple_categorize`: ordered keyword buckets over the
lower-cased description. -/
def simple_categorize (description : String) : String :=
  let d := pyLower description
  if ["video", "movie", "youtube", "tiktok"].any (fun w => strHasSub w d) then "Video"
  else if ["text", "writing", "content", "blog"].any (fun w => strHasSub w d) then "Text"
  else if ["productivity", "task", "management", "organize"].any (fun w => strHasSub w d) then "Productivity"
  else if ["marketing", "sales", "promotion", "ad"].any (fun w => strHasSub w d) then "Marketing"
  else if ["education", "learning", "course", "teach"].any (fun w => strHasSub w d) then "Education"
  else if ["audio", "music", "podcast", "sound"].any (fun w => strHasSub w d) then "Audio"
  else "Other"

/-- `AIAnalyzer._extract_pain_point_simple`: first matching pain indicator
wins, default "提升效率". -/
def extract_pain_point_simple (description : String) : String :=
  let d := pyLower description
  match ["difficult", "hard", "time-consuming", "expensive", "manual"].find?
      (fun w => strHasSub w d) with
  | some ind => "解决" ++ ind ++ "问题"
  | none => "提升效率"

/-- The `base_ideas` table of `AIAnalyzer._generate_simple_ideas`. -/
def baseIdeas : List (String × List String) :=
  [("Video", ["AI视频剪辑工具", "自动字幕生成器", "视频内容优化器"]),
   ("Text", ["AI写作助手", "内容优化工具", "自动化文案生成器"]),
   ("Productivity", ["任务管理工具", "时间追踪器", "效率分析仪表盘"]),
   ("Marketing", ["营销自动化工具", "客户分析平台", "社交媒体管理器"]),
   ("Education", ["在线学习平台", "智能课程推荐", "学习进度追踪器"]),
   ("Audio", ["AI音频编辑器", "语音转文字工具", "播客内容优化器"]),
   ("Other", ["效率提升工具", "自动化解决方案", "智能助手"])]

/-- `AIAnalyzer._generate_simple_ideas`: dictionary lookup by category
(the pain point argument is unused in the source too), first two entries. -/
def generate_simple_ideas (_painPoint category : String) : List String :=
  (((baseIdeas.find? (fun p => p.1 = category)).map Prod.snd).getD
    ["智能助手", "效率工具", "自动化方案"]).take 2

/-- `AIAnalyzer._fallback_local_analysis`: fully local enrichment of each
candidate (heuristic category, local trend, template pain point, canned
ideas). -/
def fallback_local_analysis (toolsData : List ToolIn) : List ToolOut :=
  toolsData.map (fun t =>
    let category := simple_categorize t.description
    let trend := detect_trend
      { tool_name := t.tool_name, description := t.description,
        votes := t.votes, ageDays := dateAge t.date } []
    let pain := extract_pain_point_simple t.description
    let ideas := generate_simple_ideas pain category
    { tool_name := t.tool_name, description := t.description,
      category := category, votes := t.votes, link := t.link,
      trend_signal := trend, pain_point := pain,
      micro_saas_ideas := ideas, date := dateOrNow t.date })

/-- `AIAnalyzer.analyze_tools`: empty input short-circuits; a failed remote
call (request exception or JSON parse failure, modelled as
`Except.error`) falls back to the local path; a successful remote call is
enhanced with the local trend and validated. -/
def analyze_tools (remote : Except Unit (List GptItem)) (toolsData : List ToolIn) :
    List ToolOut :=
  if toolsData = [] then []
  else
    match remote with
    | Except.error _ => fallback_local_analysis toolsData
    | Except.ok items =>
        validate_analysis_results (enhance_with_local_analysis items toolsData)

/-! ### DataCleaner (`backend/scrapers/data_cleaner.py`) -/

/-- `RawTool` (`backend/models.py`): the candidate record the cleaner
operates on.  `date` is modelled as an integer timestamp; the cleaner is
parametrised by the timestamps `now` and `oneYearAgo` that
`_validate_date` computes from the clock. -/
structure RawTool where
  tool_name : String
  description : String
  votes : Int
  link : String
  date : Int
  category : String
deriving Repr, DecidableEq

/-- The character class `[-*_]` of the name-cleaning patterns. -/
def markerChar (c : Char) : Bool := c = '-' || c = '*' || c = '_'

/-- `re.sub(r'^\s*[-*_]\s*', '', name)`: one leading marker (with
surrounding whitespace) is removed when present; otherwise unchanged. -/
def cleanNamePat1 (l : List Char) : List Char :=
  match List.dropWhile pySpace l with
  | c :: rest => if markerChar c then List.dropWhile pySpace rest else l
  | [] => l

/-- `re.sub(r'\s*[-*_]\s*$', '', name)`: one trailing marker (with
surrounding whitespace) is removed when present.  The trailing `\s*$` is
greedy and always anchors at the true end of the string. -/
def cleanNamePat2 (l : List Char) : List Char :=
  match List.dropWhile pySpace l.reverse with
  | c :: rest => if markerChar c then (List.dropWhile pySpace rest).reverse else l
  | [] => l

/-- Scan for the first `']'` not preceded by a newline (`.*?` is lazy and
`.` does not match a newline); returns the remainder after it. -/
def closeBr : List Char → Option (List Char)
  | [] => none
  | c :: rest =>
    if c = ']' then some rest
    else if c = '\n' then none
    else closeBr rest

/-- `re.sub(r'^\[.*?\]\s*', '', name)`. -/
def cleanNamePat3 (l : List Char) : List Char :=
  match l with
  | '[' :: rest =>
    (match closeBr rest with
     | some rem => List.dropWhile pySpace rem
     | none => l)
  | _ => l

/-- On the reversed remainder after the closing `']'`: find the earliest
(`leftmost` in the original string) `'['` reachable without crossing a
newline; returns the reversed prefix before it. -/
def findOpenRev : List Char → Option (List Char)
  | [] => none
  | c :: rest =>
    if c = '\n' then none
    else
      match findOpenRev rest with
      | some r => some r
      | none => if c = '[' then some rest else none

/-- `re.sub(r'\s*\[.*?\]\s*$', '', name)`: the closing bracket must be the
last non-whitespace character; the match extends left to the earliest
`'['` in the same line and eats the whitespace run before it. -/
def cleanNamePat4 (l : List Char) : List Char :=
  match List.dropWhile pySpace l.reverse with
  | c :: rs =>
    if c = ']' then
      match findOpenRev rs with
      | some rem => (List.dropWhile pySpace rem).reverse
      | none => l
    else l
  | [] => l

/-- `re.sub(r'^\s*\d+X\s*', '', name)` for `X` the separator `'.'`
(pattern 5) or `')'` (pattern 6).  `\d` is modelled as ASCII digits. -/
def cleanNameNum (sep : Char) (l : List Char) : List Char :=
  let a := List.dropWhile pySpace l
  let ds := List.takeWhile Char.isDigit a
  let b := List.dropWhile Char.isDigit a
  if ds = [] then l
  else
    match b with
    | c :: rest => if c = sep then List.dropWhile pySpace rest else l
    | [] => l

/-- The emoji alternation of pattern 7 (`🚀\s*|✨\s*|🎯\s*|⭐\s*`). -/
def emojiChar (c : Char) : Bool := c = '🚀' || c = '✨' || c = '🎯' || c = '⭐'

/-- `re.sub` of the emoji pattern: every emoji occurrence plus the
whitespace run following it is removed; the flag records being inside
such a whitespace run. -/
def stripEmojiGo : List Char → Bool → List Char
  | [], _ => []
  | c :: rest, skip =>
    if emojiChar c then stripEmojiGo rest true
    else if skip && pySpace c then stripEmojiGo rest true
    else c :: stripEmojiGo rest false

/-- `re.sub(r'\s+', ' ', s)`: collapse each maximal whitespace run to one
space; the flag records being inside a run already emitted. -/
def collapseWsGo : List Char → Bool → List Char
  | [], _ => []
  | c :: rest, inRun =>
    if pySpace c then
      if inRun then collapseWsGo rest true else ' ' :: collapseWsGo rest true
    else c :: collapseWsGo rest false

/-- Python `str.strip()`. -/
def pyStrip (l : List Char) : List Char :=
  (List.dropWhile pySpace (List.dropWhile pySpace l).reverse).reverse

/-- `DataCleaner._clean_tool_name`: the seven junk patterns in order, then
`strip()[:100]`, then whitespace collapsing. -/
def clean_tool_name (name : String) : String :=
  if name = "" then ""
  else
    let l1 := cleanNamePat1 name.data
    let l2 := cleanNamePat2 l1
    let l3 := cleanNamePat3 l2
    let l4 := cleanNamePat4 l3
    let l5 := cleanNameNum '.' l4
    let l6 := cleanNameNum ')' l5
    let l7 := stripEmojiGo l6 false
    let l8 := (pyStrip l7).take 100
    String.mk (collapseWsGo l8 false)

/-- Python `\w` (letters, digits, underscore).  ASCII alphanumerics and
underscore, with all non-ASCII characters (the CJK text the program
handles) counted as word characters. -/
def pyWordChar (c : Char) : Bool := c.isAlphanum || c = '_' || c.val ≥ 128

/-- The kept class of `re.sub(r'[^\w\s\-\.\,\!\?\:\;]', ' ', s)`. -/
def descKeepChar (c : Char) : Bool :=
  pyWordChar c || pySpace c || c = '-' || c = '.' || c = ',' ||
    c = '!' || c = '?' || c = ':' || c = ';'

/-- Does a `<[^>]+>` match start at the current `'<'`?  It does iff the
next character exists, is not `'>'`, and some `'>'` occurs later. -/
def tagAhead : List Char → Bool
  | [] => false
  | a :: t => decide (a ≠ '>') && (a :: t).contains '>'

/-- `re.sub(r'<[^>]+>', '', s)`: remove HTML tags; the flag records being
inside a tag (consuming up to the next `'>'`). -/
def stripTagsGo : List Char → Bool → List Char
  | [], _ => []
  | c :: rest, true => if c = '>' then stripTagsGo rest false else stripTagsGo rest true
  | c :: rest, false =>
    if c = '<' then
      if tagAhead rest then stripTagsGo rest true else c :: stripTagsGo rest false
    else c :: stripTagsGo rest false

/-- Prepend a character to the first field of a split result. -/
def consHead (c : Char) : List (List Char) → List (List Char)
  | [] => [[c]]
  | w :: ws => (c :: w) :: ws

/-- Python `s.split('. ')`: split on every occurrence of the two-character
separator, keeping empty fields. -/
def splitDotSpace : List Char → List (List Char)
  | [] => [[]]
  | '.' :: ' ' :: rest => [] :: splitDotSpace rest
  | c :: rest => consHead c (splitDotSpace rest)

/-- Insert into a set modelled as a duplicate-free list. -/
def setInsert (x : List Char) (s : List (List Char)) : List (List Char) :=
  if s.contains x then s else s ++ [x]

/-- `set(text.split())` (after lowering is applied by the caller). -/
def toWordSet (l : List Char) : List (List Char) :=
  (pySplitWs l).foldl (fun s w => setInsert w s) []

/-- `DataCleaner._similarity_check` with the default threshold 0.8: the
word-set Jaccard similarity test.  `|inter|/|union| ≥ 0.8` is computed
with exact arithmetic as `5*|inter| ≥ 4*|union|`. -/
def similarity_check (text1 text2 : List Char) : Bool :=
  if text1 = [] || text2 = [] then false
  else
    let w1 := toWordSet (text1.map Char.toLower)
    let w2 := toWordSet (text2.map Char.toLower)
    if w1 = [] || w2 = [] then false
    else
      let inter := w1.countP (fun w => w2.contains w)
      let union := w1.length + w2.countP (fun w => !w1.contains w)
      decide (5 * inter ≥ 4 * union)

/-- The sentence-deduplication loop of `_clean_description`: keep each
non-empty stripped sentence not similar to an already-kept one. -/
def dedupSentGo : List (List Char) → List (List Char) → List (List Char)
  | [], uniq => uniq
  | s :: rest, uniq =>
    let s' := pyStrip s
    if s' ≠ [] && !(uniq.any (fun e => similarity_check s' e)) then
      dedupSentGo rest (uniq ++ [s'])
    else dedupSentGo rest uniq

/-- `DataCleaner._clean_description`: strip HTML tags, blank out special
characters, collapse whitespace, deduplicate near-identical sentences,
keep at most three, join and cap at 500 characters. -/
def clean_description (description : String) : String :=
  if description = "" then ""
  else
    let l1 := stripTagsGo description.data false
    let l2 := l1.map (fun c => if descKeepChar c then c else ' ')
    let l3 := collapseWsGo l2 false
    let uniq := dedupSentGo (splitDotSpace l3) []
    let joined := List.intercalate ['.', ' '] (uniq.take 3)
    String.mk ((pyStrip joined).take 500)

/-- The `category_mapping` table of `_standardize_category`. -/
def categoryMapping : List (String × String) :=
  [("video editing", "Video"), ("video generation", "Video"),
   ("text generation", "Text"), ("content creation", "Text"),
   ("productivity tools", "Productivity"), ("task management", "Productivity"),
   ("marketing tools", "Marketing"), ("social media", "Marketing"),
   ("educational", "Education"), ("learning", "Education"),
   ("audio processing", "Audio"), ("music generation", "Audio"),
   ("image generation", "Image"), ("photo editing", "Image"),
   ("code generation", "Code"), ("programming", "Code")]

/-- The `category_keywords` table of `_infer_category`, in dict insertion
order. -/
def categoryKeywords : List (String × List String) :=
  [("Video", ["video", "movie", "animation", "film", "video generation", "video editing"]),
   ("Text", ["text", "writing", "content", "copywriting", "article", "blog", "text generation"]),
   ("Productivity", ["productivity", "task", "workflow", "automation", "efficiency", "management"]),
   ("Marketing", ["marketing", "seo", "social media", "advertising", "email", "promotion"]),
   ("Education", ["education", "learning", "tutoring", "course", "teaching", "training"]),
   ("Audio", ["audio", "music", "voice", "sound", "podcast", "speech", "music generation"]),
   ("Image", ["image", "photo", "picture", "graphic", "design", "image generation"]),
   ("Code", ["code", "programming", "development", "coding", "software", "api"])]

/-- `DataCleaner._infer_category`: first category whose keyword set hits
the lower-cased name+description, default `""`. -/
def infer_category (toolName description : String) : String :=
  let text := pyLower (toolName ++ " " ++ description)
  (((categoryKeywords.find? (fun p => p.2.any (fun k => strHasSub k text))).map
    Prod.fst).getD "")

/-- The fixed list `_standardize_category` accepts directly. -/
def validStdCats : List String :=
  ["Video", "Text", "Productivity", "Marketing", "Education", "Audio", "Image", "Code"]

/-- `DataCleaner._standardize_category`. -/
def standardize_category (originalCategory toolName description : String) : String :=
  if originalCategory ≠ "" then
    let standardized :=
      (((categoryMapping.find? (fun p => p.1 = pyLower originalCategory)).map
        Prod.snd).getD originalCategory)
    if validStdCats.contains standardized then standardized
    else infer_category toolName description
  else infer_category toolName description

/-- `DataCleaner._validate_votes`: clamp into `[0, 10000]` (the
`isinstance` test always passes in the typed model). -/
def validate_votes (votes : Int) : Int :=
  if votes < 0 then 0 else min votes 10000

/-- `DataCleaner._validate_date`: clamp the timestamp into
`[oneYearAgo, now]`. -/
def validate_date (now oneYearAgo date : Int) : Int :=
  if date > now then now
  else if date < oneYearAgo then oneYearAgo
  else date

/-! #### URL canonicalization (`_validate_and_normalize_url`) -/

/-- Does one of the tracking tokens `utm_` / `ref=` / `source=` start
here (just after a `?` or `&`)? -/
def trackTokenAt (l : List Char) : Bool :=
  leadsWith "utm_".data l || leadsWith "ref=".data l || leadsWith "source=".data l

/-- `re.sub(r'[?&](utm_[^&]*|ref=[^&]*|source=[^&]*)', '', url)`: the flag
records being inside a match (consuming `[^&]*` up to the next `'&'`,
which may itself start the next match). -/
def stripGo : List Char → Bool → List Char
  | [], _ => []
  | c :: rest, true =>
    if c = '&' then
      if trackTokenAt rest then stripGo rest true
      else c :: stripGo rest false
    else stripGo rest true
  | c :: rest, false =>
    if (c = '?' || c = '&') && trackTokenAt rest then stripGo rest true
    else c :: stripGo rest false

/-- The tracking-parameter stripping pass. -/
def stripTracking (l : List Char) : List Char := stripGo l false

/-- `url.startswith(('http://', 'https://'))`. -/
def startsHttp (l : List Char) : Bool :=
  leadsWith "http://".data l || leadsWith "https://".data l

/-- The remainder after the scheme prefix (callers guarantee the string
starts with `http://` or `https://`). -/
def schemeRest (l : List Char) : List Char :=
  if leadsWith "https://".data l then l.drop 8 else l.drop 7

/-- `urlparse(url).netloc` for an url starting with `http(s)://`: the
characters after the `//` up to the first `/`, `?` or `#`. -/
def netlocOf (l : List Char) : List Char :=
  (schemeRest l).takeWhile (fun c => !(c = '/' || c = '?' || c = '#'))

/-- `urlsplit` raises `ValueError` on a netloc with unbalanced square
brackets (the invalid-IPv6 check); the `except` turns that into `""`. -/
def bracketOk (nl : List Char) : Bool := (nl.contains '[') == (nl.contains ']')

/-- The `try` block: `parsed.netloc` truthy and scheme in
`['http','https']` (guaranteed by the prefix), with the bracket check
standing in for the `ValueError` path. -/
def urlparseOk (l : List Char) : Bool := !(netlocOf l).isEmpty && bracketOk (netlocOf l)

/-- `DataCleaner._validate_and_normalize_url`: strip tracking parameters,
complete the scheme, and validate via `urlparse`. -/
def validate_and_normalize_url (url : String) : String :=
  if url = "" then ""
  else
    let u1 := stripTracking url.data
    let u2 := if startsHttp u1 then u1 else "https://".data ++ u1
    if urlparseOk u2 then String.mk u2 else ""

/-! #### Per-tool cleaning and the deduplicating list pass -/

/-- `DataCleaner.clean_single_tool`. -/
def clean_single_tool (now oneYearAgo : Int) (t : RawTool) : Option RawTool :=
  let cleanedName := clean_tool_name t.tool_name
  let cleanedDescription := clean_description t.description
  let cleanedCategory := standardize_category t.category cleanedName cleanedDescription
  let cleanedLink := validate_and_normalize_url t.link
  let cleanedVotes := validate_votes t.votes
  let cleanedDate := validate_date now oneYearAgo t.date
  if cleanedName = "" || cleanedLink = "" then none
  else some { tool_name := cleanedName, description := cleanedDescription,
              votes := cleanedVotes, link := cleanedLink,
              date := cleanedDate, category := cleanedCategory }

/-- `DataCleaner._is_valid_tool` given the current `duplicate_links` set
(modelled as a list): required fields, not a duplicate link, name length
in `[3, 100]`. -/
def is_valid_tool (seen : List String) (t : RawTool) : Bool :=
  !(t.tool_name = "") && !(t.link = "") && !(seen.contains t.link) &&
    decide (3 ≤ t.tool_name.length) && decide (t.tool_name.length ≤ 100)

/-- The loop of `DataCleaner.clean_tools_list`, threading the
`duplicate_links` set (which `_is_valid_tool` grows on success). -/
def cleanToolsGo (now oneYearAgo : Int) : List RawTool → List String → List RawTool
  | [], _ => []
  | t :: rest, seen =>
    match clean_single_tool now oneYearAgo t with
    | none => cleanToolsGo now oneYearAgo rest seen
    | some y =>
      if is_valid_tool seen y then
        y :: cleanToolsGo now oneYearAgo rest (seen ++ [y.link])
      else cleanToolsGo now oneYearAgo rest seen

/-- `DataCleaner.clean_tools_list` on a fresh cleaner (empty
`duplicate_links`). -/
def clean_tools_list (now oneYearAgo : Int) (tools : List RawTool) : List RawTool :=
  cleanToolsGo now oneYearAgo tools []

/-- The state-independent part of `_is_valid_tool`. -/
def validStatic (t : RawTool) : Bool :=
  !(t.tool_name = "") && !(t.link = "") &&
    decide (3 ≤ t.tool_name.length) && decide (t.tool_name.length ≤ 100)

/-- The candidates that survive cleaning and the state-independent
validity checks, in input order ("survivors"). -/
def survivorsOf (now oneYearAgo : Int) (tools : List RawTool) : List RawTool :=
  tools.filterMap (fun t =>
    match clean_single_tool now oneYearAgo t with
    | some y => if validStatic y then some y else none
    | none => none)

/-- Keep the first record per link (the pure content of the
`duplicate_links` mechanism). -/
def dedupeByLink : List RawTool → List String → List RawTool
  | [], _ => []
  | t :: rest, seen =>
    if seen.contains t.link then dedupeByLink rest seen
    else t :: dedupeByLink rest (seen ++ [t.link])

/-! ### Persistence (`backend/database/`) -/

/-- `ToolData` (`database_manager.py`): the validated record shape.  The
typed model carries the fields; the date is an integer timestamp. -/
structure ToolData where
  tool_name : String
  description : String
  category : String
  votes : Int
  link : String
  trend_signal : String
  pain_point : String
  micro_saas_ideas : List String
  date : Int
deriving Repr, DecidableEq

/-- `DatabaseManager.validate_tool_data`: reject a record without a
`tool_name`; the date/votes/ideas coercions are identities on the typed
model, and Pydantic validation of well-typed fields succeeds. -/
def validate_tool_data (t : ToolData) : Option ToolData :=
  if t.tool_name = "" then none else some t

/-- `SupabaseDB.tool_exists` as a function of the outcome of its store
query (the list of matching row ids, or an exception): the `except`
branch returns `False`. -/
def tool_exists (queryResult : Except Unit (List Nat)) : Bool :=
  match queryResult with
  | Except.ok rows => rows.length > 0
  | Except.error _ => false

/-- `SupabaseDB.insert_tools` as a function of the insert outcome: `True`
iff the store reports as many inserted rows as were sent; the `except`
branch returns `False`. -/
def insert_tools (execResult : Except Unit Nat) (sent : Nat) : Bool :=
  match execResult with
  | Except.ok returned => returned = sent
  | Except.error _ => false

/-- The external store as the persistence layer sees it: the outcome of an
existence query (row ids or exception) and of a batch insert (row count
or exception, plus the successor store state).  Queries do not change the
state; inserts may. -/
structure StoreModel (σ : Type) where
  existsResult : σ → ToolData → Except Unit (List Nat)
  insertResult : σ → List ToolData → Except Unit Nat × σ

/-- The duplicate check `await self.db.tool_exists(...)` against a store
state. -/
def toolExistsAt {σ : Type} (m : StoreModel σ) (s : σ) (t : ToolData) : Bool :=
  tool_exists (m.existsResult s t)

/-- The insert `await self.db.insert_tools(...)` against a store state. -/
def insertToolsAt {σ : Type} (m : StoreModel σ) (s : σ) (batch : List ToolData) :
    Bool × σ :=
  let r := m.insertResult s batch
  (insert_tools r.1 batch.length, r.2)

/-- Aggregate counters (`stats` dict). -/
structure Stats where
  success : Nat
  failed : Nat
  duplicates : Nat
deriving Repr, DecidableEq

/-- `BatchOptimizer._create_chunks` / the inner 20-wide slicing of
`batch_insert_tools`: `range(0, len(data), n)` slicing, with the list
length as structural fuel (sufficient whenever `n > 0`; the Python code
raises on `n = 0`). -/
def chunksFuel {α : Type} (n : Nat) : Nat → List α → List (List α)
  | _, [] => []
  | 0, _ :: _ => []
  | fuel + 1, l => l.take n :: chunksFuel n fuel (l.drop n)

/-- `_create_chunks(data, n)`. -/
def create_chunks {α : Type} (data : List α) (n : Nat) : List (List α) :=
  chunksFuel n data.length data

/-- One inner batch (≤ 20 records) of `DatabaseManager.batch_insert_tools`:
count duplicates via the existence check, insert the rest, credit
`success` or `failed` for the whole sub-batch according to the insert
outcome.  `tool_exists` and `insert_tools` catch their own exceptions
(`supabase_client.py`), so the `except` arm of the source loop is
unreachable and does not appear in the model. -/
def processInnerBatch {σ : Type} (m : StoreModel σ) (acc : Stats × σ)
    (batch : List ToolData) : Stats × σ :=
  let s := acc.2
  let dups := batch.filter (fun t => toolExistsAt m s t)
  let newBatch := batch.filter (fun t => !(toolExistsAt m s t))
  let st1 : Stats := ⟨acc.1.success, acc.1.failed, acc.1.duplicates + dups.length⟩
  if newBatch = [] then (st1, s)
  else
    let r := insertToolsAt m s newBatch
    if r.1 then (⟨st1.success + newBatch.length, st1.failed, st1.duplicates⟩, r.2)
    else (⟨st1.success, st1.failed + newBatch.length, st1.duplicates⟩, r.2)

/-- `DatabaseManager.batch_insert_tools`: validate every record (failures
count as `failed`), then process the validated records in slices of 20. -/
def batch_insert_tools {σ : Type} (m : StoreModel σ) (s : σ)
    (toolsData : List ToolData) : Stats × σ :=
  if toolsData = [] then (⟨0, 0, 0⟩, s)
  else
    let failed0 := (toolsData.filter (fun t => (validate_tool_data t).isNone)).length
    let validated := toolsData.filterMap validate_tool_data
    if validated = [] then (⟨0, failed0, 0⟩, s)
    else
      (create_chunks validated 20).foldl (fun acc chunk => processInnerBatch m acc chunk)
        (⟨0, failed0, 0⟩, s)

/-- `BatchOptimizer.process_large_batch`: split into `batch_size` chunks
and aggregate the per-chunk stats.  `_process_chunk` catches every
exception (and `batch_insert_tools` is total in the model), so the
`isinstance(result, Exception)` arm is unreachable; the semaphore only
bounds concurrency, and the aggregate counts are independent of chunk
interleaving, so chunks are threaded sequentially. -/
def process_large_batch {σ : Type} (m : StoreModel σ) (s : σ) (batchSize : Nat)
    (toolsData : List ToolData) : Stats × σ :=
  if toolsData = [] then (⟨0, 0, 0⟩, s)
  else
    (create_chunks toolsData batchSize).foldl
      (fun acc chunk =>
        let r := batch_insert_tools m acc.2 chunk
        (⟨acc.1.success + r.1.success, acc.1.failed + r.1.failed,
          acc.1.duplicates + r.1.duplicates⟩, r.2))
      (⟨0, 0, 0⟩, s)

/-- A store whose existence queries always raise (modelling store read
failures) and whose inserts succeed, logging every insert call: the state
is the list of inserted batches. -/
def failingReadStore : StoreModel (List (List ToolData)) :=
  { existsResult := fun _ _ => Except.error (),
    insertResult := fun s batch => (Except.ok batch.length, s ++ [batch]) }

/-! ### RSSManager (`backend/scrapers/rss_manager.py`) -/

/-- `RSSManager._fetch_single_source_with_retry`: the attempt loop, with
the outcome of each attempt given by `f` (`Except.error` = the fetcher
raised, `Except.ok` = it returned a list).  Structural fuel counts the
remaining loop iterations.  Returns the overall outcome together with the
list of back-off sleeps performed (`2 ** attempt` seconds each). -/
def fetchRetryGo (f : Nat → Except Unit (List RawTool)) :
    Nat → Nat → List Nat → Except Unit (List RawTool) × List Nat
  | 0, _, sleeps => (Except.error (), sleeps)
  | remaining + 1, attempt, sleeps =>
    match f attempt with
    | Except.ok tools =>
      if tools = [] then fetchRetryGo f remaining (attempt + 1) sleeps
      else (Except.ok tools, sleeps)
    | Except.error _ =>
      if remaining = 0 then (Except.error (), sleeps)
      else fetchRetryGo f remaining (attempt + 1) (sleeps ++ [2 ^ attempt])

/-- `_fetch_single_source_with_retry` with the constructor default
`max_retries = 3`. -/
def fetch_single_source_with_retry (f : Nat → Except Unit (List RawTool)) :
    Except Unit (List RawTool) × List Nat :=
  fetchRetryGo f 3 0 []

/-- Per-source entry of the `results['sources']` dict. -/
structure SourceResult where
  name : String
  ok : Bool
  tools : List RawTool
deriving Repr, DecidableEq

/-- The parts of the `results` dict of `fetch_all_rss_sources` the
verification speaks about. -/
structure RunResults where
  sourceResults : List SourceResult
  errors : List String
  allTools : List RawTool
  cleanedTools : List RawTool
  success : Bool
deriving Repr, DecidableEq

/-- `RSSManager.fetch_all_rss_sources`: fan out over the sources (each an
independent retried fetch; `asyncio.gather(..., return_exceptions=True)`
isolates failures, so each outcome is computed independently), merge the
tools of the successful sources, clean them, and derive the run status. -/
def fetch_all_rss_sources (now oneYearAgo : Int)
    (sources : List (String × (Nat → Except Unit (List RawTool)))) : RunResults :=
  let rs := sources.map (fun src =>
    match (fetch_single_source_with_retry src.2).1 with
    | Except.ok ts => ({ name := src.1, ok := true, tools := ts } : SourceResult)
    | Except.error _ => ({ name := src.1, ok := false, tools := [] } : SourceResult))
  let errs := (rs.filter (fun r => !r.ok)).map SourceResult.name
  let allTools := (rs.filter (fun r => r.ok && !r.tools.isEmpty)).flatMap SourceResult.tools
  let cleaned := clean_tools_list now oneYearAgo allTools
  { sourceResults := rs, errors := errs, allTools := allTools,
    cleanedTools := cleaned,
    success := errs.isEmpty && !cleaned.isEmpty }

/-! ### Additional definitions used by the verification -/

/-- Does a tracking-parameter match (`[?&]` followed by `utm_`/`ref=`/
`source=`) start anywhere in the list?  The output of `stripTracking` is
characterised by this predicate being false. -/
def hasTrack : List Char → Bool
  | [] => false
  | c :: rest => ((c = '?' || c = '&') && trackTokenAt rest) || hasTrack rest

/-- The text `detect_trend` scans: lower-cased name, a space, lower-cased
description (`f"{name} {description}"`). -/
def scoreText (t : ToolInfo) : List Char :=
  (pyLower t.tool_name).data ++ (' ' :: (pyLower t.description).data)

/-- Modelled from the claim (C4): the historical-comparison outcome, `none`
when no historical matches are supplied. -/
def spec_hist_outcome (t : ToolInfo) (hist : List HistTool) : Option String :=
  if hist = [] then none else some (analyze_historical_trend t hist)

/-- Modelled from the claim (C4): the rising accumulator as a closed-form
sum of the fixed weights (votes ≥ 100 → +30, +15 per rising-keyword hit,
age ≤ 7 → +20, historical Rising → +25, breakthrough phrasing → +20). -/
def spec_rising_score (t : ToolInfo) (hist : List HistTool) : Int :=
  (if t.votes ≥ 100 then 30 else 0) +
  15 * ((risingKeywords.countP (fun kw => hasSub (pyLower kw).data (scoreText t))) : Int) +
  (match t.ageDays with | some d => if d ≤ 7 then 20 else 0 | none => 0) +
  (if spec_hist_outcome t hist = some "Rising" then 25 else 0) +
  (if is_breakthrough_tool (scoreText t) then 20 else 0)

/-- Modelled from the claim (C4): the declining accumulator (votes ≤ 10 →
+20, +25 per declining-keyword hit, age ≥ 30 → +15, historical Declining
→ +25); the vote and age bonuses are exclusive with the corresponding
rising bonuses, as in the source's `elif` chains. -/
def spec_declining_score (t : ToolInfo) (hist : List HistTool) : Int :=
  (if t.votes ≤ 10 ∧ ¬(t.votes ≥ 100) then 20 else 0) +
  25 * ((decliningKeywords.countP (fun kw => hasSub (pyLower kw).data (scoreText t))) : Int) +
  (match t.ageDays with | some d => if d ≥ 30 ∧ ¬(d ≤ 7) then 15 else 0 | none => 0) +
  (if spec_hist_outcome t hist = some "Declining" then 25 else 0)

/-- Modelled from the claim (C4): the stable accumulator, 50 plus 25 when
the historical comparison is neither Rising nor Declining. -/
def spec_stable_score (t : ToolInfo) (hist : List HistTool) : Int :=
  50 + (match spec_hist_outcome t hist with
        | some s => if s = "Rising" ∨ s = "Declining" then 0 else 25
        | none => 0)

/-- Modelled from the claim (C4): `score_trend` as the decision rule over
the three closed-form accumulators. -/
def spec_score_trend (t : ToolInfo) (hist : List HistTool) : String :=
  trendDecision (spec_rising_score t hist) (spec_stable_score t hist)
    (spec_declining_score t hist)

/-! ### Concrete inputs used by the witnesses and the counterexample -/

/-- A candidate whose link carries a tracking parameter. -/
def c6tool1 : RawTool :=
  { tool_name := "Alpha Tool", description := "", votes := 5,
    link := "https://a.com?utm_x=1", date := 0, category := "" }

/-- A candidate whose canonical link collides with `c6tool1`'s. -/
def c6tool2 : RawTool :=
  { tool_name := "Beta Tool", description := "", votes := 7,
    link := "https://a.com", date := 0, category := "" }

/-- A candidate named "CoolTool". -/
def c7tool1 : RawTool :=
  { tool_name := "CoolTool", description := "", votes := 5,
    link := "https://a.com", date := 0, category := "" }

/-- A candidate with the same case-folded name as `c7tool1` but a
different link. -/
def c7tool2 : RawTool :=
  { tool_name := "cooltool", description := "", votes := 6,
    link := "https://b.com", date := 0, category := "" }

/-- A single analyzer input candidate. -/
def c1tool : ToolIn :=
  { tool_name := "ToolX", description := "video editing for youtube",
    votes := 150, link := "https://x.com", date := DateVal.age 2 }

/-- A GPT item with an out-of-vocabulary trend signal. -/
def c5gpt : GptItem :=
  { tool_name := some "ToolX", category := some "Video",
    trend_signal := some "Rising", pain_point := some "editing is slow",
    micro_saas_ideas := some ["auto cutter"] }

/-- An enriched record with out-of-vocabulary category and trend. -/
def c3tool : ToolOut :=
  { tool_name := "ToolY", description := "", category := "Weird",
    votes := 0, link := "", trend_signal := "Up", pain_point := "",
    micro_saas_ideas := [], date := DateVal.absent }

/-- A persistence record with a name (so validation accepts it). -/
def c10tool : ToolData :=
  { tool_name := "ToolZ", description := "", category := "Other",
    votes := 1, link := "https://z.com", trend_signal := "Stable",
    pain_point := "", micro_saas_ideas := [], date := 0 }

/-- A second persistence record. -/
def c10tool2 : ToolData :=
  { tool_name := "ToolW", description := "", category := "Other",
    votes := 2, link := "https://w.com", trend_signal := "Stable",
    pain_point := "", micro_saas_ideas := [], date := 0 }

/-- A fetcher that raises on every attempt. -/
def wFail : Nat → Except Unit (List RawTool) := fun _ => Except.error ()

/-- A fetcher that succeeds immediately with one tool. -/
def wOk : Nat → Except Unit (List RawTool) := fun _ => Except.ok [c6tool2]

/-- A two-source run: one failing connector, one succeeding connector. -/
def wSrcs : List (String × (Nat → Except Unit (List RawTool))) :=
  [("bad", wFail), ("good", wOk)]

/-- The default record used with `headD` in witnesses. -/
def defaultToolOut : ToolOut := mergeTool emptyGptItem emptyToolIn

/-! ### Supporting lemmas: URL stripping (claim C9) -/

theorem stripGo_skip_shape (l : List Char) :
    stripGo l true = [] ∨ ∃ l', stripGo l true = '&' :: l' := by
  induction l with
  | nil => exact Or.inl rfl
  | cons c rest ih =>
    by_cases hc : c = '&'
    · subst hc
      by_cases ht : trackTokenAt rest
      · simpa [stripGo, ht] using ih
      · exact Or.inr ⟨stripGo rest false, by simp [stripGo, ht]⟩
    · simpa [stripGo, hc] using ih

theorem leadsWith_stripGo_false (l : List Char) :
    ∀ t : List Char, '&' ∉ t → leadsWith t (stripGo l false) = true →
      leadsWith t l = true := by
  induction l with
  | nil => intro t _ h; simpa [stripGo] using h
  | cons c rest ih =>
    intro t hamp h
    by_cases hcond : ((c = '?' || c = '&') && trackTokenAt rest : Bool) = true
    · rw [stripGo, if_pos hcond] at h
      rcases stripGo_skip_shape rest with hs | ⟨l', hs⟩
      · rw [hs] at h
        cases t with
        | nil => rfl
        | cons a as => simp [leadsWith] at h
      · rw [hs] at h
        cases t with
        | nil => rfl
        | cons a as =>
          simp only [leadsWith, Bool.and_eq_true, beq_iff_eq] at h
          exact absurd h.1 (by intro he; exact hamp (he ▸ List.mem_cons_self a as))
    · rw [stripGo, if_neg hcond] at h
      cases t with
      | nil => rfl
      | cons a as =>
        simp only [leadsWith, Bool.and_eq_true, beq_iff_eq] at h ⊢
        exact ⟨h.1, ih as (fun hm => hamp (List.mem_cons_of_mem a hm)) h.2⟩

theorem amp_not_mem_tokens :
    ('&' ∉ "utm_".data) ∧ ('&' ∉ "ref=".data) ∧ ('&' ∉ "source=".data) := by decide

theorem trackTokenAt_stripGo_false (l : List Char) (h : trackTokenAt l = false) :
    trackTokenAt (stripGo l false) = false := by
  by_contra hcon
  rw [Bool.not_eq_false, trackTokenAt] at hcon
  rcases Bool.or_eq_true_iff.mp hcon with h1 | h1
  · rcases Bool.or_eq_true_iff.mp h1 with h2 | h2
    · have := leadsWith_stripGo_false l _ amp_not_mem_tokens.1 h2
      simp [trackTokenAt, this] at h
    · have := leadsWith_stripGo_false l _ amp_not_mem_tokens.2.1 h2
      simp [trackTokenAt, this] at h
  · have := leadsWith_stripGo_false l _ amp_not_mem_tokens.2.2 h1
    simp [trackTokenAt, this] at h

theorem hasTrack_stripGo (l : List Char) : ∀ b, hasTrack (stripGo l b) = false := by
  induction l with
  | nil => intro b; cases b <;> rfl
  | cons c rest ih =>
    intro b
    cases b with
    | true =>
      by_cases hc : c = '&'
      · subst hc
        by_cases ht : trackTokenAt rest
        · simpa [stripGo, ht] using ih true
        · rw [stripGo, if_pos rfl, if_neg ht]
          rw [hasTrack]
          simp only [Bool.or_eq_false_iff]
          constructor
          · simp [trackTokenAt_stripGo_false rest (by simpa using ht)]
          · exact ih false
      · simpa [stripGo, hc] using ih true
    | false =>
      by_cases hcond : ((c = '?' || c = '&') && trackTokenAt rest : Bool) = true
      · simpa [stripGo, hcond] using ih true
      · rw [stripGo, if_neg hcond]
        rw [hasTrack]
        simp only [Bool.or_eq_false_iff]
        refine ⟨?_, ih false⟩
        have hor : (decide (c = '?') || decide (c = '&')) = false ∨
            trackTokenAt rest = false := by
          cases h1 : (decide (c = '?') || decide (c = '&'))
          · exact Or.inl rfl
          · cases h2 : trackTokenAt rest
            · exact Or.inr rfl
            · exact absurd (by simp [h1, h2]) hcond
        rcases hor with h1 | h1
        · simp [h1]
        · simp [trackTokenAt_stripGo_false rest h1]

theorem stripGo_fixpoint (l : List Char) (h : hasTrack l = false) :
    stripGo l false = l := by
  induction l with
  | nil => rfl
  | cons c rest ih =>
    rw [hasTrack, Bool.or_eq_false_iff] at h
    rw [stripGo, if_neg (by simp [h.1])]
    rw [ih h.2]

theorem hasTrack_append_of_safe (a y : List Char)
    (h : ∀ c ∈ a, ¬(c = '?' ∨ c = '&')) : hasTrack (a ++ y) = hasTrack y := by
  induction a with
  | nil => rfl
  | cons c as ih =>
    have hc := h c (List.mem_cons_self c as)
    rw [List.cons_append, hasTrack]
    have h1 : (decide (c = '?') || decide (c = '&')) = false := by
      simp only [Bool.or_eq_false_iff, decide_eq_false_iff_not]
      exact ⟨fun hq => hc (Or.inl hq), fun hq => hc (Or.inr hq)⟩
    rw [h1, Bool.false_and, Bool.false_or]
    exact ih (fun d hd => h d (List.mem_cons_of_mem c hd))

theorem leadsWith_append_self (p x : List Char) : leadsWith p (p ++ x) = true := by
  induction p with
  | nil => rfl
  | cons c cs ih => simp [leadsWith, ih]

theorem stripTracking_notrack (l : List Char) : hasTrack (stripTracking l) = false :=
  hasTrack_stripGo l false

theorem url_norm_fixpoint (v : String) (hnt : hasTrack v.data = false)
    (hhttp : startsHttp v.data = true) (hok : urlparseOk v.data = true) :
    validate_and_normalize_url v = v := by
  have hne : v ≠ "" := by
    intro h
    subst h
    simp [startsHttp, leadsWith] at hhttp
  have hfix : stripTracking v.data = v.data := stripGo_fixpoint v.data hnt
  simp only [validate_and_normalize_url, if_neg hne, hfix, hhttp, if_true, hok]

/-! ### Supporting lemmas: within-run deduplication (claims C6, C7) -/

theorem contains_append_single_false (seen : List String) (x a : String)
    (h : (seen ++ [x]).contains a = false) : seen.contains a = false ∧ a ≠ x := by
  simp at h
  exact ⟨by simp [h.1], h.2⟩

theorem is_valid_tool_eq (seen : List String) (y : RawTool) :
    is_valid_tool seen y = (validStatic y && !(seen.contains y.link)) := by
  rw [is_valid_tool, validStatic]
  cases h : seen.contains y.link <;>
    cases (!(y.tool_name = "") : Bool) <;>
      cases (!(y.link = "") : Bool) <;>
        cases (decide (3 ≤ y.tool_name.length)) <;>
          cases (decide (y.tool_name.length ≤ 100)) <;> simp_all

theorem cleanToolsGo_eq_dedupe (now oneYearAgo : Int) :
    ∀ (tools : List RawTool) (seen : List String),
      cleanToolsGo now oneYearAgo tools seen =
        dedupeByLink (survivorsOf now oneYearAgo tools) seen := by
  intro tools
  induction tools with
  | nil => intro seen; rfl
  | cons t rest ih =>
    intro seen
    rw [cleanToolsGo, survivorsOf, List.filterMap_cons]
    cases hc : clean_single_tool now oneYearAgo t with
    | none => exact ih seen
    | some y =>
      dsimp only
      cases hv : validStatic y with
      | false =>
        have hiv : is_valid_tool seen y = false := by
          rw [is_valid_tool_eq, hv, Bool.false_and]
        rw [hiv]
        simp only [Bool.false_eq_true, if_false]
        exact ih seen
      | true =>
        have hiv : is_valid_tool seen y = !(seen.contains y.link) := by
          rw [is_valid_tool_eq, hv, Bool.true_and]
        rw [hiv]
        simp only [if_true]
        cases hcs : seen.contains y.link with
        | true =>
          simp only [Bool.not_true, Bool.false_eq_true, if_false]
          rw [ih seen, dedupeByLink, if_pos hcs]
          rfl
        | false =>
          simp only [Bool.not_false, if_true]
          rw [ih (seen ++ [y.link]), dedupeByLink,
            if_neg (fun hcon => by rw [hcon] at hcs; exact absurd hcs (by decide))]
          rfl

theorem dedupe_not_seen :
    ∀ (l : List RawTool) (seen : List String) (y : RawTool),
      y ∈ dedupeByLink l seen → seen.contains y.link = false := by
  intro l
  induction l with
  | nil => intro seen y h; simp [dedupeByLink] at h
  | cons t rest ih =>
    intro seen y h
    rw [dedupeByLink] at h
    by_cases hc : seen.contains t.link
    · rw [if_pos hc] at h
      exact ih seen y h
    · rw [if_neg hc] at h
      rcases List.mem_cons.mp h with rfl | hmem
      · simpa using hc
      · exact (contains_append_single_false seen t.link y.link
          (ih (seen ++ [t.link]) y hmem)).1

theorem dedupe_links_nodup :
    ∀ (l : List RawTool) (seen : List String),
      ((dedupeByLink l seen).map RawTool.link).Nodup := by
  intro l
  induction l with
  | nil => intro seen; simp [dedupeByLink]
  | cons t rest ih =>
    intro seen
    rw [dedupeByLink]
    by_cases hc : seen.contains t.link
    · rw [if_pos hc]; exact ih seen
    · rw [if_neg hc]
      simp only [List.map_cons, List.nodup_cons]
      constructor
      · intro hmem
        rcases List.mem_map.mp hmem with ⟨z, hz, hlink⟩
        have h2 := (contains_append_single_false seen t.link z.link
          (dedupe_not_seen rest (seen ++ [t.link]) z hz)).2
        exact h2 (by rw [hlink])
      · exact ih (seen ++ [t.link])

theorem dedupe_first_wins :
    ∀ (l : List RawTool) (seen : List String) (y : RawTool),
      y ∈ dedupeByLink l seen →
        l.find? (fun z => z.link == y.link) = some y := by
  intro l
  induction l with
  | nil => intro seen y h; simp [dedupeByLink] at h
  | cons t rest ih =>
    intro seen y h
    rw [dedupeByLink] at h
    by_cases hc : seen.contains t.link
    · rw [if_pos hc] at h
      have hy := dedupe_not_seen rest seen y h
      have hne : t.link ≠ y.link := by
        intro he
        rw [← he, hc] at hy
        cases hy
      rw [List.find?_cons_of_neg _ (by simpa using hne)]
      exact ih seen y h
    · rw [if_neg hc] at h
      rcases List.mem_cons.mp h with rfl | hmem
      · rw [List.find?_cons_of_pos _ (by simp)]
      · have hy := (contains_append_single_false seen t.link y.link
          (dedupe_not_seen rest (seen ++ [t.link]) y hmem)).2
        rw [List.find?_cons_of_neg _ (by simpa using (Ne.symm hy))]
        exact ih (seen ++ [t.link]) y hmem

/-! ### Supporting lemmas: analyzer (claims C1, C3, C4, C5) -/

theorem trendDecision_cases (r s d : Int) :
    trendDecision r s d = "Rising" ∨ trendDecision r s d = "Declining" ∨
      trendDecision r s d = "Stable" := by
  unfold trendDecision
  split_ifs <;> simp

theorem detect_trend_cases (t : ToolInfo) (hist : List HistTool) :
    detect_trend t hist = "Rising" ∨ detect_trend t hist = "Declining" ∨
      detect_trend t hist = "Stable" :=
  trendDecision_cases _ _ _

theorem simple_categorize_cases (d : String) :
    simple_categorize d = "Video" ∨ simple_categorize d = "Text" ∨
    simple_categorize d = "Productivity" ∨ simple_categorize d = "Marketing" ∨
    simple_categorize d = "Education" ∨ simple_categorize d = "Audio" ∨
    simple_categorize d = "Other" := by
  simp only [simple_categorize]
  split_ifs <;> simp

theorem ideas_nonempty (p d : String) :
    ∃ i ∈ generate_simple_ideas p (simple_categorize d), i ≠ "" := by
  rcases simple_categorize_cases d with h | h | h | h | h | h | h <;> rw [h]
  · rw [show generate_simple_ideas p "Video" = ["AI视频剪辑工具", "自动字幕生成器"] from rfl]
    exact ⟨"AI视频剪辑工具", by simp, by decide⟩
  · rw [show generate_simple_ideas p "Text" = ["AI写作助手", "内容优化工具"] from rfl]
    exact ⟨"AI写作助手", by simp, by decide⟩
  · rw [show generate_simple_ideas p "Productivity" = ["任务管理工具", "时间追踪器"] from rfl]
    exact ⟨"任务管理工具", by simp, by decide⟩
  · rw [show generate_simple_ideas p "Marketing" = ["营销自动化工具", "客户分析平台"] from rfl]
    exact ⟨"营销自动化工具", by simp, by decide⟩
  · rw [show generate_simple_ideas p "Education" = ["在线学习平台", "智能课程推荐"] from rfl]
    exact ⟨"在线学习平台", by simp, by decide⟩
  · rw [show generate_simple_ideas p "Audio" = ["AI音频编辑器", "语音转文字工具"] from rfl]
    exact ⟨"AI音频编辑器", by simp, by decide⟩
  · rw [show generate_simple_ideas p "Other" = ["效率提升工具", "自动化解决方案"] from rfl]
    exact ⟨"效率提升工具", by simp, by decide⟩

theorem foldl_add_if (k : Int) (p : String → Bool) :
    ∀ (l : List String) (a : Int),
      l.foldl (fun acc kw => if p kw then acc + k else acc) a =
        a + k * (l.countP p : Int) := by
  intro l
  induction l with
  | nil => intro a; simp
  | cons x rest ih =>
    intro a
    rw [List.foldl_cons, ih, List.countP_cons]
    by_cases h : p x
    · simp [h]; ring
    · simp [h]

theorem trendDecision_congr {a s d a' s' d' : Int}
    (ha : a = a') (hs : s = s') (hd : d = d') :
    trendDecision a s d = trendDecision a' s' d' := by
  rw [ha, hs, hd]

set_option maxHeartbeats 1000000 in
theorem detect_trend_eq_spec (t : ToolInfo) (hist : List HistTool) :
    detect_trend t hist = spec_score_trend t hist := by
  obtain ⟨name, desc, votes, age⟩ := t
  simp only [detect_trend, spec_score_trend]
  apply trendDecision_congr
  · rw [foldl_add_if 15 _ risingKeywords]
    simp only [spec_rising_score, spec_hist_outcome, scoreText]
    dsimp only
    generalize (↑(List.countP (fun kw => hasSub (pyLower kw).data ((pyLower name).data ++ ' ' :: (pyLower desc).data)) risingKeywords) : Int) = c
    rcases age with _ | d <;> split_ifs <;> (try simp_all) <;> omega
  · simp only [spec_stable_score, spec_hist_outcome]
    split_ifs <;> simp_all
  · rw [foldl_add_if 25 _ decliningKeywords]
    simp only [spec_declining_score, spec_hist_outcome, scoreText]
    dsimp only
    generalize (↑(List.countP (fun kw => hasSub (pyLower kw).data ((pyLower name).data ++ ' ' :: (pyLower desc).data)) decliningKeywords) : Int) = c
    rcases age with _ | d <;> split_ifs <;> (try simp_all) <;> omega

/-! ### Supporting lemmas: persistence (claims C2, C10) -/

theorem chunksFuel_flatten {α : Type} (n : Nat) (hn : 0 < n) :
    ∀ (fuel : Nat) (l : List α), l.length ≤ fuel →
      (chunksFuel n fuel l).flatten = l := by
  intro fuel
  induction fuel with
  | zero =>
    intro l hl
    cases l with
    | nil => rfl
    | cons c rest => simp at hl
  | succ f ih =>
    intro l hl
    cases l with
    | nil => rfl
    | cons c rest =>
      show (List.take n (c :: rest) :: chunksFuel n f (List.drop n (c :: rest))).flatten =
        c :: rest
      have hlen2 : ((c :: rest).drop n).length ≤ f := by
        rw [List.length_drop]
        simp only [List.length_cons] at hl ⊢
        omega
      rw [List.flatten_cons, ih _ hlen2]
      exact List.take_append_drop n (c :: rest)

theorem create_chunks_flatten {α : Type} (l : List α) (n : Nat) (hn : 0 < n) :
    (create_chunks l n).flatten = l :=
  chunksFuel_flatten n hn l.length l le_rfl

theorem filter_not_length {α : Type} (p : α → Bool) (l : List α) :
    (l.filter p).length + (l.filter (fun a => !(p a))).length = l.length := by
  induction l with
  | nil => rfl
  | cons a rest ih =>
    by_cases h : p a
    · simp [List.filter_cons, h, ← ih]; omega
    · simp [List.filter_cons, h, ← ih]; omega

theorem validate_partition (l : List ToolData) :
    (l.filter (fun t => (validate_tool_data t).isNone)).length +
      (l.filterMap validate_tool_data).length = l.length := by
  induction l with
  | nil => rfl
  | cons t rest ih =>
    rw [List.filter_cons, List.filterMap_cons]
    by_cases h : t.tool_name = ""
    · have h2 : validate_tool_data t = none := by simp [validate_tool_data, h]
      rw [h2]
      simp only [Option.isNone_none, if_true, List.length_cons]
      omega
    · have h2 : validate_tool_data t = some t := by simp [validate_tool_data, h]
      rw [h2]
      simp only [Option.isNone_some, Bool.false_eq_true, if_false, List.length_cons]
      omega

theorem processInnerBatch_counts {σ : Type} (m : StoreModel σ) (acc : Stats × σ)
    (batch : List ToolData) :
    ((processInnerBatch m acc batch).1.success + (processInnerBatch m acc batch).1.failed +
      (processInnerBatch m acc batch).1.duplicates) =
    (acc.1.success + acc.1.failed + acc.1.duplicates) + batch.length := by
  rw [processInnerBatch]
  have hpart := filter_not_length (fun t => toolExistsAt m acc.2 t) batch
  by_cases hnb : batch.filter (fun t => !(toolExistsAt m acc.2 t)) = []
  · rw [if_pos hnb]
    dsimp only
    rw [hnb] at hpart
    simp only [List.length_nil] at hpart
    omega
  · rw [if_neg hnb]
    dsimp only
    by_cases hins :
        (insertToolsAt m acc.2 (batch.filter (fun t => !(toolExistsAt m acc.2 t)))).1 = true
    · rw [if_pos hins]
      dsimp only
      omega
    · rw [if_neg hins]
      dsimp only
      omega

theorem innerFold_counts {σ : Type} (m : StoreModel σ) :
    ∀ (chunks : List (List ToolData)) (acc : Stats × σ),
      ((chunks.foldl (fun a c => processInnerBatch m a c) acc).1.success +
       (chunks.foldl (fun a c => processInnerBatch m a c) acc).1.failed +
       (chunks.foldl (fun a c => processInnerBatch m a c) acc).1.duplicates) =
      (acc.1.success + acc.1.failed + acc.1.duplicates) + (chunks.map List.length).sum := by
  intro chunks
  induction chunks with
  | nil => intro acc; simp
  | cons c rest ih =>
    intro acc
    rw [List.foldl_cons, ih (processInnerBatch m acc c), processInnerBatch_counts]
    simp only [List.map_cons, List.sum_cons]
    omega

theorem batch_insert_tools_conservation {σ : Type} (m : StoreModel σ) (s : σ)
    (tools : List ToolData) :
    ((batch_insert_tools m s tools).1.success + (batch_insert_tools m s tools).1.failed +
      (batch_insert_tools m s tools).1.duplicates) = tools.length := by
  rw [batch_insert_tools]
  by_cases hnil : tools = []
  · rw [if_pos hnil, hnil]; rfl
  · rw [if_neg hnil]
    dsimp only
    by_cases hval : tools.filterMap validate_tool_data = []
    · rw [if_pos hval]
      dsimp only
      have := validate_partition tools
      rw [hval] at this
      simpa using this
    · rw [if_neg hval]
      have hlen : ((create_chunks (tools.filterMap validate_tool_data) 20).map
          List.length).sum = (tools.filterMap validate_tool_data).length := by
        rw [← List.length_flatten, create_chunks_flatten _ _ (by omega)]
      rw [innerFold_counts]
      dsimp only
      rw [hlen]
      have := validate_partition tools
      omega

theorem outerFold_counts {σ : Type} (m : StoreModel σ) :
    ∀ (chunks : List (List ToolData)) (acc : Stats × σ),
      (((chunks.foldl (fun a chunk =>
          let r := batch_insert_tools m a.2 chunk
          (⟨a.1.success + r.1.success, a.1.failed + r.1.failed,
            a.1.duplicates + r.1.duplicates⟩, r.2)) acc).1.success +
        (chunks.foldl (fun a chunk =>
          let r := batch_insert_tools m a.2 chunk
          (⟨a.1.success + r.1.success, a.1.failed + r.1.failed,
            a.1.duplicates + r.1.duplicates⟩, r.2)) acc).1.failed +
        (chunks.foldl (fun a chunk =>
          let r := batch_insert_tools m a.2 chunk
          (⟨a.1.success + r.1.success, a.1.failed + r.1.failed,
            a.1.duplicates + r.1.duplicates⟩, r.2)) acc).1.duplicates)) =
      (acc.1.success + acc.1.failed + acc.1.duplicates) + (chunks.map List.length).sum := by
  intro chunks
  induction chunks with
  | nil => intro acc; simp
  | cons c rest ih =>
    intro acc
    rw [List.foldl_cons, ih]
    simp only [List.map_cons, List.sum_cons]
    have := batch_insert_tools_conservation m acc.2 c
    omega

theorem toolExistsAt_failing (s : List (List ToolData)) (t : ToolData) :
    toolExistsAt failingReadStore s t = false := rfl

theorem processInnerBatch_failing (acc : Stats × List (List ToolData))
    (batch : List ToolData) :
    (processInnerBatch failingReadStore acc batch).1.duplicates = acc.1.duplicates ∧
    (processInnerBatch failingReadStore acc batch).2 =
      (if batch = [] then acc.2 else acc.2 ++ [batch]) := by
  rw [processInnerBatch]
  have hdup : batch.filter (fun t => toolExistsAt failingReadStore acc.2 t) = [] := by
    simp [toolExistsAt_failing]
  have hnew : batch.filter (fun t => !(toolExistsAt failingReadStore acc.2 t)) = batch := by
    simp [toolExistsAt_failing]
  rw [hdup, hnew]
  by_cases hb : batch = []
  · rw [if_pos hb, if_pos hb]
    simp
  · rw [if_neg hb, if_neg hb]
    have hins : (insertToolsAt failingReadStore acc.2 batch).1 = true := by
      simp [insertToolsAt, failingReadStore, insert_tools]
    rw [if_pos hins]
    constructor
    · simp
    · rfl

theorem innerFold_failing_dups :
    ∀ (chunks : List (List ToolData)) (acc : Stats × List (List ToolData)),
      ((chunks.foldl (fun a c => processInnerBatch failingReadStore a c) acc).1.duplicates =
        acc.1.duplicates) := by
  intro chunks
  induction chunks with
  | nil => intro acc; rfl
  | cons c rest ih =>
    intro acc
    rw [List.foldl_cons, ih]
    exact (processInnerBatch_failing acc c).1

theorem innerFold_failing_log :
    ∀ (chunks : List (List ToolData)) (acc : Stats × List (List ToolData)) (t : ToolData),
      (t ∈ acc.2.flatten ∨ ∃ ch ∈ chunks, t ∈ ch) →
      t ∈ ((chunks.foldl (fun a c => processInnerBatch failingReadStore a c) acc).2).flatten := by
  intro chunks
  induction chunks with
  | nil =>
    intro acc t h
    rcases h with h | ⟨ch, hch, _⟩
    · exact h
    · simp at hch
  | cons c rest ih =>
    intro acc t h
    rw [List.foldl_cons]
    apply ih
    rcases h with h | ⟨ch, hch, hm⟩
    · left
      rw [(processInnerBatch_failing acc c).2]
      by_cases hb : c = []
      · rw [if_pos hb]; exact h
      · rw [if_neg hb]
        simp only [List.flatten_append, List.flatten_cons, List.flatten_nil,
          List.append_nil]
        exact List.mem_append_left _ h
    · rcases List.mem_cons.mp hch with rfl | hch2
      · left
        rw [(processInnerBatch_failing acc ch).2]
        have hb : ch ≠ [] := by
          intro hc
          rw [hc] at hm
          simp at hm
        rw [if_neg hb]
        simp only [List.flatten_append, List.flatten_cons, List.flatten_nil,
          List.append_nil]
        exact List.mem_append_right _ hm
      · right
        exact ⟨ch, hch2, hm⟩

/-! ### Claim theorems -/

/-- Claim C1: for every non-empty input batch, if the remote classification
call fails, `analyze_tools` does not raise and returns exactly one record
per candidate via the local fallback, each with a non-empty category, a
trend signal in {Rising, Stable, Declining}, and at least one non-empty
micro-SaaS idea string. -/
theorem enrich_fallback_completeness (tools : List ToolIn) (h : tools ≠ []) :
    (analyze_tools (Except.error ()) tools).length = tools.length ∧
    ∀ r ∈ analyze_tools (Except.error ()) tools,
      r.category ≠ "" ∧
      (r.trend_signal = "Rising" ∨ r.trend_signal = "Stable" ∨
        r.trend_signal = "Declining") ∧
      ∃ i ∈ r.micro_saas_ideas, i ≠ "" := by
  rw [analyze_tools, if_neg h]
  constructor
  · exact List.length_map _ _
  · intro r hr
    rcases List.mem_map.mp hr with ⟨t, _, rfl⟩
    dsimp only
    refine ⟨?_, ?_, ?_⟩
    · rcases simple_categorize_cases t.description with h | h | h | h | h | h | h <;>
        simp [h]
    · rcases detect_trend_cases
        { tool_name := t.tool_name, description := t.description,
          votes := t.votes, ageDays := dateAge t.date } [] with h | h | h
      · left; exact h
      · right; right; exact h
      · right; left; exact h
    · exact ideas_nonempty _ t.description

/-- Witness for C1: a concrete one-element batch. -/
theorem enrich_fallback_completeness_witness :
    [c1tool] ≠ [] ∧
    ((analyze_tools (Except.error ()) [c1tool]).length = [c1tool].length ∧
    ∀ r ∈ analyze_tools (Except.error ()) [c1tool],
      r.category ≠ "" ∧
      (r.trend_signal = "Rising" ∨ r.trend_signal = "Stable" ∨
        r.trend_signal = "Declining") ∧
      ∃ i ∈ r.micro_saas_ideas, i ≠ "") :=
  ⟨by decide, enrich_fallback_completeness [c1tool] (by decide)⟩

/-- Claim C2: after `process_large_batch` completes, the returned counts
satisfy success + failed + duplicates = N, for every store behaviour,
record list and positive chunk size. -/
theorem persist_conservation {σ : Type} (m : StoreModel σ) (s : σ) (batchSize : Nat)
    (tools : List ToolData) (hB : 0 < batchSize) :
    ((process_large_batch m s batchSize tools).1.success +
     (process_large_batch m s batchSize tools).1.failed +
     (process_large_batch m s batchSize tools).1.duplicates) = tools.length := by
  rw [process_large_batch]
  by_cases hnil : tools = []
  · rw [if_pos hnil, hnil]; rfl
  · rw [if_neg hnil]
    rw [outerFold_counts]
    have hlen : ((create_chunks tools batchSize).map List.length).sum = tools.length := by
      rw [← List.length_flatten, create_chunks_flatten _ _ hB]
    rw [hlen]
    simp

/-- Witness for C2: three records split into chunks of two against the
logging store. -/
theorem persist_conservation_witness :
    0 < 2 ∧
    ((process_large_batch failingReadStore [] 2 [c10tool, c10tool2, c10tool]).1.success +
     (process_large_batch failingReadStore [] 2 [c10tool, c10tool2, c10tool]).1.failed +
     (process_large_batch failingReadStore [] 2 [c10tool, c10tool2, c10tool]).1.duplicates) =
      [c10tool, c10tool2, c10tool].length :=
  ⟨by decide,
   persist_conservation failingReadStore [] 2 [c10tool, c10tool2, c10tool] (by decide)⟩

/-- Claim C3: every record emitted by `_validate_analysis_results` has its
category in the fixed seven-element set and its trend signal in
{Rising, Stable, Declining}; out-of-vocabulary values are coerced to
`Other` / `Stable`, in-vocabulary values pass through. -/
theorem validation_fixed_vocabularies :
    (∀ (ts : List ToolOut) (r : ToolOut), r ∈ validate_analysis_results ts →
      r.category ∈ CATEGORIES ∧ r.trend_signal ∈ TREND_SIGNALS) ∧
    (∀ t r : ToolOut, validateOne t = some r →
      (r.category = if t.category ∈ CATEGORIES then t.category else "Other") ∧
      (r.trend_signal = if t.trend_signal ∈ TREND_SIGNALS then t.trend_signal
        else "Stable")) := by
  have hone : ∀ t r : ToolOut, validateOne t = some r →
      (r.category = if t.category ∈ CATEGORIES then t.category else "Other") ∧
      (r.trend_signal = if t.trend_signal ∈ TREND_SIGNALS then t.trend_signal
        else "Stable") := by
    intro t r hv
    rw [validateOne] at hv
    by_cases hname : t.tool_name = ""
    · rw [if_pos hname] at hv; cases hv
    · rw [if_neg hname] at hv
      have hr := (Option.some.injEq _ _).mp hv
      constructor
      · rw [← hr]
        show (if CATEGORIES.contains t.category = true then t.category else "Other") =
          (if t.category ∈ CATEGORIES then t.category else "Other")
        by_cases hcat : t.category ∈ CATEGORIES
        · rw [if_pos (by simpa using hcat), if_pos hcat]
        · rw [if_neg (by simpa using hcat), if_neg hcat]
      · rw [← hr]
        show (if TREND_SIGNALS.contains t.trend_signal = true then t.trend_signal
            else "Stable") =
          (if t.trend_signal ∈ TREND_SIGNALS then t.trend_signal else "Stable")
        by_cases htr : t.trend_signal ∈ TREND_SIGNALS
        · rw [if_pos (by simpa using htr), if_pos htr]
        · rw [if_neg (by simpa using htr), if_neg htr]
  refine ⟨?_, hone⟩
  intro ts r hr
  rcases List.mem_filterMap.mp hr with ⟨t, _, hv⟩
  rcases hone t r hv with ⟨h1, h2⟩
  constructor
  · rw [h1]
    by_cases hcat : t.category ∈ CATEGORIES
    · rwa [if_pos hcat]
    · rw [if_neg hcat]; decide
  · rw [h2]
    by_cases htr : t.trend_signal ∈ TREND_SIGNALS
    · rwa [if_pos htr]
    · rw [if_neg htr]; decide

/-- Witness for C3: a record with out-of-vocabulary category and trend is
coerced and lands in the fixed sets. -/
theorem validation_fixed_vocabularies_witness :
    ((validate_analysis_results [c3tool]).headD defaultToolOut ∈
      validate_analysis_results [c3tool] ∧
     ((validate_analysis_results [c3tool]).headD defaultToolOut).category ∈ CATEGORIES ∧
     ((validate_analysis_results [c3tool]).headD defaultToolOut).trend_signal ∈
       TREND_SIGNALS) :=
  ⟨by decide,
   validation_fixed_vocabularies.1 [c3tool]
     ((validate_analysis_results [c3tool]).headD defaultToolOut) (by decide)⟩

/-- Claim C4: `detect_trend` equals the specified accumulator computation
(the fixed weight table over votes, keyword hits, recency, historical
comparison and breakthrough phrasing, followed by the order-sensitive
decision rule), and the concrete example (votes 150, the breakthrough
text, age 2 days) yields Rising. -/
theorem trend_scorer_weights_and_decision :
    (∀ (t : ToolInfo) (hist : List HistTool),
      detect_trend t hist = spec_score_trend t hist) ∧
    detect_trend
      { tool_name := "",
        description := "revolutionary new breakthrough automation tool launched this week",
        votes := 150, ageDays := some 2 } [] = "Rising" :=
  ⟨detect_trend_eq_spec, by decide⟩

/-- Claim C5: every record produced by `_enhance_with_local_analysis`
carries the locally computed heuristic trend signal — the remote value
survives only when the two agree. -/
theorem remote_trend_overridden_by_local (gpt : List GptItem) (orig : List ToolIn) :
    ∀ r ∈ enhance_with_local_analysis gpt orig,
      r.trend_signal = detect_trend (infoOfOut r) [] := by
  intro r hr
  rw [enhance_with_local_analysis] at hr
  rcases List.mem_map.mp hr with ⟨i, _, rfl⟩
  dsimp only
  by_cases hne : (mergeTool (gpt.getD i emptyGptItem) (orig.getD i emptyToolIn)).trend_signal ≠
      detect_trend (infoOfOut (mergeTool (gpt.getD i emptyGptItem) (orig.getD i emptyToolIn))) []
  · rw [if_pos hne]
    rfl
  · rw [if_neg hne]
    exact Classical.not_not.mp hne

/-- Witness for C5: a concrete merged record carries the local trend. -/
theorem remote_trend_overridden_by_local_witness :
    ((enhance_with_local_analysis [c5gpt] [c1tool]).headD defaultToolOut ∈
      enhance_with_local_analysis [c5gpt] [c1tool]) ∧
    ((enhance_with_local_analysis [c5gpt] [c1tool]).headD defaultToolOut).trend_signal =
      detect_trend
        (infoOfOut ((enhance_with_local_analysis [c5gpt] [c1tool]).headD defaultToolOut))
        [] :=
  ⟨by decide,
   remote_trend_overridden_by_local [c5gpt] [c1tool]
     ((enhance_with_local_analysis [c5gpt] [c1tool]).headD defaultToolOut) (by decide)⟩

/-- Claim C6: the deduplicated output of `clean_tools_list` contains at
most one candidate per canonical link, and the kept candidate is the
first survivor with that link in input order. -/
theorem dedup_one_per_link_first_wins (now oneYearAgo : Int) (tools : List RawTool) :
    (((clean_tools_list now oneYearAgo tools).map RawTool.link).Nodup) ∧
    (∀ y ∈ clean_tools_list now oneYearAgo tools,
      (survivorsOf now oneYearAgo tools).find? (fun z => z.link == y.link) = some y) := by
  constructor
  · rw [clean_tools_list, cleanToolsGo_eq_dedupe]
    exact dedupe_links_nodup _ _
  · intro y hy
    rw [clean_tools_list, cleanToolsGo_eq_dedupe] at hy
    exact dedupe_first_wins _ _ _ hy

/-- Witness for C6: two candidates whose links canonicalize to the same
URL; the kept record is the first survivor with that link. -/
theorem dedup_one_per_link_first_wins_witness :
    ((clean_tools_list 0 (-365) [c6tool1, c6tool2]).headD c6tool1 ∈
      clean_tools_list 0 (-365) [c6tool1, c6tool2]) ∧
    (survivorsOf 0 (-365) [c6tool1, c6tool2]).find?
      (fun z => z.link ==
        ((clean_tools_list 0 (-365) [c6tool1, c6tool2]).headD c6tool1).link) =
      some ((clean_tools_list 0 (-365) [c6tool1, c6tool2]).headD c6tool1) :=
  ⟨by decide,
   (dedup_one_per_link_first_wins 0 (-365) [c6tool1, c6tool2]).2
     ((clean_tools_list 0 (-365) [c6tool1, c6tool2]).headD c6tool1) (by decide)⟩

/-- Counterexample to claim C7 as stated: two candidates whose cleaned
names are identical after case-folding but whose canonical links differ
both appear in the deduplicated output — the name-based secondary
collapse the claim describes does not exist in `clean_tools_list`. -/
theorem name_collapse_counterexample :
    pyLower (clean_tool_name c7tool1.tool_name) =
      pyLower (clean_tool_name c7tool2.tool_name) ∧
    c7tool1.link ≠ c7tool2.link ∧
    (clean_tools_list 0 (-365) [c7tool1, c7tool2]).length = 2 := by decide

/-- Claim C7 (amended): the within-run deduplication collapses by canonical
link only — `clean_tools_list` is exactly first-per-link deduplication of
the cleaning survivors, so candidates with identical case-folded names
but distinct links are all kept. -/
theorem dedup_key_is_link_only (now oneYearAgo : Int) (tools : List RawTool) :
    clean_tools_list now oneYearAgo tools =
      dedupeByLink (survivorsOf now oneYearAgo tools) [] :=
  cleanToolsGo_eq_dedupe now oneYearAgo tools []

/-- Claim C8: a transiently failing fetch is retried up to 3 attempts with
exponentially growing backoff and raises only after the last attempt
fails; a success on an earlier attempt returns without raising; and one
connector exhausting its retries does not remove the tools of any
successful connector from the merged run output. -/
theorem retry_and_isolation :
    (∀ f : Nat → Except Unit (List RawTool),
      f 0 = Except.error () → f 1 = Except.error () → f 2 = Except.error () →
      fetch_single_source_with_retry f = (Except.error (), [2 ^ 0, 2 ^ 1])) ∧
    (∀ (f : Nat → Except Unit (List RawTool)) (ts : List RawTool),
      f 0 = Except.ok ts → ts ≠ [] →
      fetch_single_source_with_retry f = (Except.ok ts, [])) ∧
    (∀ (f : Nat → Except Unit (List RawTool)) (ts : List RawTool),
      f 0 = Except.error () → f 1 = Except.ok ts → ts ≠ [] →
      fetch_single_source_with_retry f = (Except.ok ts, [2 ^ 0])) ∧
    (∀ (now oneYearAgo : Int)
      (srcs : List (String × (Nat → Except Unit (List RawTool))))
      (src : String × (Nat → Except Unit (List RawTool))) (ts : List RawTool)
      (t : RawTool),
      src ∈ srcs → (fetch_single_source_with_retry src.2).1 = Except.ok ts → t ∈ ts →
      t ∈ (fetch_all_rss_sources now oneYearAgo srcs).allTools) := by
  refine ⟨?_, ?_, ?_, ?_⟩
  · intro f h0 h1 h2
    simp [fetch_single_source_with_retry, fetchRetryGo, h0, h1, h2]
  · intro f ts h0 hne
    simp [fetch_single_source_with_retry, fetchRetryGo, h0, hne]
  · intro f ts h0 h1 hne
    simp [fetch_single_source_with_retry, fetchRetryGo, h0, h1, hne]
  · intro now oneYearAgo srcs src ts t hsrc hok ht
    rw [fetch_all_rss_sources]
    dsimp only
    apply List.mem_flatMap.mpr
    refine ⟨{ name := src.1, ok := true, tools := ts }, ?_, ht⟩
    apply List.mem_filter.mpr
    constructor
    · apply List.mem_map.mpr
      refine ⟨src, hsrc, ?_⟩
      rw [hok]
    · have hne : ts ≠ [] := by
        intro hc
        rw [hc] at ht
        simp at ht
      simp [hne]

/-- Witness for C8: a connector failing all three attempts raises after
backoffs 1 and 2; the other connector's tool still reaches the merged
output. -/
theorem retry_and_isolation_witness :
    (wFail 0 = Except.error () ∧ wFail 1 = Except.error () ∧
      wFail 2 = Except.error () ∧
      fetch_single_source_with_retry wFail = (Except.error (), [2 ^ 0, 2 ^ 1])) ∧
    (("good", wOk) ∈ wSrcs ∧
      (fetch_single_source_with_retry wOk).1 = Except.ok [c6tool2] ∧
      c6tool2 ∈ [c6tool2] ∧
      c6tool2 ∈ (fetch_all_rss_sources 0 (-365) wSrcs).allTools) :=
  ⟨⟨rfl, rfl, rfl, retry_and_isolation.1 wFail rfl rfl rfl⟩,
   ⟨List.mem_cons_of_mem _ (List.mem_cons_self _ _), rfl, List.mem_cons_self _ _,
    retry_and_isolation.2.2.2 0 (-365) wSrcs ("good", wOk) [c6tool2] c6tool2
      (List.mem_cons_of_mem _ (List.mem_cons_self _ _)) rfl
      (List.mem_cons_self _ _)⟩⟩

/-- Claim C9: URL canonicalization is idempotent — applying
`_validate_and_normalize_url` to its own output returns that output
unchanged. -/
theorem url_canonicalization_idempotent (u : String) :
    validate_and_normalize_url (validate_and_normalize_url u) =
      validate_and_normalize_url u := by
  by_cases hu : u = ""
  · subst hu; rfl
  · have hynt : hasTrack (stripTracking u.data) = false := stripTracking_notrack u.data
    set y := stripTracking u.data with hy
    set u2 := if startsHttp y then y else "https://".data ++ y with hu2
    have hu2nt : hasTrack u2 = false := by
      rw [hu2]
      by_cases hs : startsHttp y
      · simpa [hs] using hynt
      · rw [if_neg hs, hasTrack_append_of_safe _ _ (by decide)]
        exact hynt
    have hu2http : startsHttp u2 = true := by
      rw [hu2]
      by_cases hs : startsHttp y
      · simp [hs]
      · rw [if_neg hs, startsHttp]
        have h2 : leadsWith "https://".data ("https://".data ++ y) = true :=
          leadsWith_append_self _ _
        simp only [Bool.or_eq_true]
        right
        simpa using h2
    have hfu : validate_and_normalize_url u =
        (if urlparseOk u2 then String.mk u2 else "") := by
      simp only [validate_and_normalize_url, if_neg hu]
    by_cases hok : urlparseOk u2
    · have hv : validate_and_normalize_url u = String.mk u2 := by
        rw [hfu, if_pos hok]
      rw [hv]
      exact url_norm_fixpoint (String.mk u2) hu2nt hu2http hok
    · have hv : validate_and_normalize_url u = "" := by
        rw [hfu, if_neg hok]
      rw [hv]
      rfl

/-- Claim C10: when the store existence query raises, `tool_exists`
returns False instead of propagating, so during batch persistence no
record is counted as a duplicate and every validated record has an insert
attempted — the cross-run duplicate check degrades to "not a duplicate"
under store read failures. -/
theorem store_read_failure_degrades_dedup :
    (tool_exists (Except.error ()) = false) ∧
    (∀ (s : List (List ToolData)) (tools : List ToolData),
      (batch_insert_tools failingReadStore s tools).1.duplicates = 0) ∧
    (∀ (tools : List ToolData) (t : ToolData), t ∈ tools → t.tool_name ≠ "" →
      t ∈ ((batch_insert_tools failingReadStore [] tools).2).flatten) := by
  refine ⟨rfl, ?_, ?_⟩
  · intro s tools
    rw [batch_insert_tools]
    by_cases hnil : tools = []
    · rw [if_pos hnil]
    · rw [if_neg hnil]
      dsimp only
      by_cases hval : tools.filterMap validate_tool_data = []
      · rw [if_pos hval]
      · rw [if_neg hval]
        rw [innerFold_failing_dups]
  · intro tools t ht hname
    have hnil : tools ≠ [] := by
      intro hc
      rw [hc] at ht
      simp at ht
    have htv : t ∈ tools.filterMap validate_tool_data :=
      List.mem_filterMap.mpr ⟨t, ht, by simp [validate_tool_data, hname]⟩
    have hval : tools.filterMap validate_tool_data ≠ [] := by
      intro hc
      rw [hc] at htv
      simp at htv
    rw [batch_insert_tools, if_neg hnil]
    dsimp only
    rw [if_neg hval]
    apply innerFold_failing_log
    right
    have hjoin : (create_chunks (tools.filterMap validate_tool_data) 20).flatten =
        tools.filterMap validate_tool_data := create_chunks_flatten _ _ (by omega)
    have hmem : t ∈ (create_chunks (tools.filterMap validate_tool_data) 20).flatten := by
      rw [hjoin]; exact htv
    exact List.mem_flatten.mp hmem

/-- Witness for C10: a named record in a store whose reads fail is not
counted as a duplicate and is sent to the insert call. -/
theorem store_read_failure_degrades_dedup_witness :
    (c10tool ∈ [c10tool] ∧ c10tool.tool_name ≠ "") ∧
    c10tool ∈ ((batch_insert_tools failingReadStore [] [c10tool]).2).flatten :=
  ⟨⟨by decide, by decide⟩,
   store_read_failure_degrades_dedup.2.2 [c10tool] c10tool (by decide) (by decide)⟩
